import Mathlib

/-!
Shallow embedding of `src/main.js`: a real-time human-activity
classification pipeline that buffers accelerometer samples into a
fixed-size sliding window, extracts statistical features, standardizes
them with stored scaler parameters, runs an external classifier, takes
the arg-max, and maps the predicted label to a coarse intensity level.

Modelling conventions:
* JavaScript numbers are modelled as exact reals (`ℝ`); `Date.now()`
  timestamps as integers (`ℤ`).
* The JS arrays `buffer`, `mean`, `scale`, `probs`, `labels` are Lean
  lists; out-of-range indexing (`undefined` in JS, which the source
  always immediately coerces with `|| 0`, `|| 1e-8` or `|| 'unknown'`)
  is modelled with `List.getD` plus the `jsOr` coercions below.
* The module-level mutable `scaler` / `labels` / `model` of the source
  become fields of an explicit `PipelineState`; the opaque TensorFlow
  classifier becomes a function parameter returning `Except`, whose
  `error` case stands for a thrown exception or malformed output.
-/

namespace Plot14

/-- One accelerometer reading `{x, y, z}` (`processSample`'s argument). -/
structure Sample where
  x : ℝ
  y : ℝ
  z : ℝ

/-- `const SAMPLING_TARGET = 200;` — the window capacity `N`. -/
def SAMPLING_TARGET : ℕ := 200

/-- The buffer update performed by `processSample`:
`buffer.push(sample); if (buffer.length > SAMPLING_TARGET) buffer.shift();`.
The head of the list is the oldest sample, the last element the newest. -/
def pushSample (buffer : List Sample) (s : Sample) : List Sample :=
  let b := buffer ++ [s]
  if b.length > SAMPLING_TARGET then b.tail else b

/-- Window contents after feeding a whole list of samples, oldest first,
into an initially empty buffer. -/
def windowAfter (samples : List Sample) : List Sample :=
  samples.foldl pushSample []

/-- `arr.reduce((a,b)=>a+b,0)` from `computeFeatures`. -/
noncomputable def listReduceAdd (arr : List ℝ) : ℝ :=
  arr.foldl (fun a b => a + b) 0

/-- `const mean = arr => arr.reduce((a,b)=>a+b,0)/arr.length;`. -/
noncomputable def mean (arr : List ℝ) : ℝ :=
  listReduceAdd arr / arr.length

/-- `const std = arr => { const m = mean(arr);
return Math.sqrt(arr.reduce((s,v)=>s+(v-m)**2,0)/arr.length); };`. -/
noncomputable def std (arr : List ℝ) : ℝ :=
  Real.sqrt ((arr.foldl (fun s v => s + (v - mean arr) ^ 2) 0) / arr.length)

/-- The `rms` closure of `computeFeatures`: the running sum of the 3-D
magnitudes `Math.sqrt(xs[i]*xs[i] + ys[i]*ys[i] + zs[i]*zs[i])` divided
by the window length (mean of per-sample magnitudes). -/
noncomputable def rmsOf (buf : List Sample) : ℝ :=
  (buf.foldl (fun s p => s + Real.sqrt (p.x * p.x + p.y * p.y + p.z * p.z)) 0) /
    buf.length

/-- `computeFeatures(buf)`: the 7-vector
`[mean(xs), mean(ys), mean(zs), std(xs), std(ys), std(zs), rms()]`. -/
noncomputable def computeFeatures (buf : List Sample) : List ℝ :=
  [mean (buf.map Sample.x), mean (buf.map Sample.y), mean (buf.map Sample.z),
   std (buf.map Sample.x), std (buf.map Sample.y), std (buf.map Sample.z),
   rmsOf buf]

/-- Spec-side arithmetic mean `(1/N) * Σ values` (for the refinement
statement of the feature formulas; written from the spec's words). -/
noncomputable def specMean (arr : List ℝ) : ℝ :=
  (1 / arr.length) * arr.sum

/-- Spec-side population standard deviation
`sqrt((1/N) * Σ (value - mean)^2)` (no Bessel correction). -/
noncomputable def specStd (arr : List ℝ) : ℝ :=
  Real.sqrt ((1 / arr.length) * ((arr.map (fun v => (v - specMean arr) ^ 2)).sum))

/-- Spec-side `rms = (1/N) * Σ sqrt(x_i^2 + y_i^2 + z_i^2)` — the mean of
per-sample 3-D magnitudes. -/
noncomputable def specRms (buf : List Sample) : ℝ :=
  (1 / buf.length) *
    ((buf.map (fun p => Real.sqrt (p.x ^ 2 + p.y ^ 2 + p.z ^ 2))).sum)

/-- The `scaler.json` contents: `{mean: number[7], scale: number[7]}`. -/
structure Scaler where
  mean : List ℝ
  scale : List ℝ

/-- The near-zero divisor guard `1e-8` from `standardize`. -/
noncomputable def epsilon : ℝ := 1 / 100000000

/-- JS `a || b` on a number known not to be `NaN`: yields `b` exactly when
`a` is `0` (the only falsy real), else `a`. Out-of-range reads, where JS
would give `undefined || b = b`, are modelled by feeding `0` in. -/
noncomputable def jsOr (v dflt : ℝ) : ℝ :=
  if v = 0 then dflt else v

/-- `standardize(features)` from the first (current) variant of the file:
`const mean = scaler?.mean || []; const scale = scaler?.scale || [];`
then, for each `i` below `features.length`,
`(features[i] - (mean[i] || 0)) / (scale[i] || 1e-8)`.
The possibly-unloaded module variable `scaler` is the `Option Scaler`
argument. -/
noncomputable def standardize (scaler : Option Scaler) (features : List ℝ) :
    List ℝ :=
  let meanArr := (scaler.map Scaler.mean).getD []
  let scaleArr := (scaler.map Scaler.scale).getD []
  (List.range features.length).map (fun i =>
    (features.getD i 0 - jsOr (meanArr.getD i 0) 0) /
      jsOr (scaleArr.getD i 0) epsilon)

/-- Spec-side normalizer (written from the spec's words, for the
refinement statement): element-wise
`(feature[i] - mean[i]) / max(scale[i], epsilon)`. -/
noncomputable def specStandardize (sc : Scaler) (features : List ℝ) : List ℝ :=
  (List.range features.length).map (fun i =>
    (features.getD i 0 - sc.mean.getD i 0) /
      max (sc.scale.getD i 0) epsilon)

/-- `lab.toLowerCase()` for the ASCII labels involved. -/
def jsToLower (s : String) : String := ⟨s.data.map Char.toLower⟩

/-- Whether `sub` occurs at the start of `hay` (character lists). -/
def strBegins : List Char → List Char → Bool
  | _, [] => true
  | [], _ :: _ => false
  | a :: hay, b :: sub => a == b && strBegins hay sub

/-- Whether `sub` occurs contiguously anywhere in `hay` (character lists). -/
def hasSubstring : List Char → List Char → Bool
  | [], sub => strBegins [] sub
  | c :: hay, sub => strBegins (c :: hay) sub || hasSubstring hay sub

/-- JS `s.includes(sub)`: substring containment. -/
def jsIncludes (s sub : String) : Bool := hasSubstring s.data sub.data

/-- `mapToFive` from the first (current) variant of the file:
`if (!lab) return 3;` then on `l = lab.toLowerCase()`:
`sit`/`stand` containment → 1, `=== 'walking'` → 3,
`=== 'upstairs' || 'downstairs'` → 3, `=== 'jogging' || 'running'` → 5,
default 3. -/
def mapToFive (lab : String) : ℕ :=
  if lab = "" then 3
  else
    let l := jsToLower lab
    if jsIncludes l "sit" || jsIncludes l "stand" then 1
    else if l = "walking" then 3
    else if l = "upstairs" || l = "downstairs" then 3
    else if l = "jogging" || l = "running" then 5
    else 3

/-- `mapToFive` from the second (related-document) variant of the file:
no falsy guard, `sit`/`standing` containment → 1, `=== 'walking'` → 3,
`=== 'upstairs' || 'downstairs'` → 3, `=== 'jogging'` → 5, default 3. -/
def mapToFiveRelated (lab : String) : ℕ :=
  let l := jsToLower lab
  if jsIncludes l "sit" || jsIncludes l "standing" then 1
  else if l = "walking" then 3
  else if l = "upstairs" || l = "downstairs" then 3
  else if l = "jogging" then 5
  else 3

/-- The claim's decision table for `mapToFive`, amended only in rule 4
(equality with `jogging`/`running` instead of containment): written
from the claim's words for the refinement statement. -/
def claimLevel (lab : String) : ℕ :=
  let l := jsToLower lab
  if jsIncludes l "sit" || jsIncludes l "stand" then 1
  else if l = "walking" then 3
  else if l = "upstairs" || l = "downstairs" then 3
  else if l = "jogging" || l = "running" then 5
  else 3

/-- The body of the arg-max loop of `doPredictFromBuffer`, iterated over
a list of candidate indices: `if (probs[i] > probs[maxIdx]) maxIdx = i;`. -/
noncomputable def argmaxLoop (probs : List ℝ) (indices : List ℕ) (maxIdx : ℕ) : ℕ :=
  indices.foldl (fun m i => if probs.getD i 0 > probs.getD m 0 then i else m) maxIdx

/-- The arg-max of `doPredictFromBuffer`:
`let maxIdx = 0; for (let i=1;i<probs.length;i++)
if (probs[i] > probs[maxIdx]) maxIdx = i;`. -/
noncomputable def argmax (probs : List ℝ) : ℕ :=
  argmaxLoop probs (List.range' 1 (probs.length - 1)) 0

/-- JS `s || 'unknown'` on a string: the empty string (and `undefined`,
modelled as the default `""` of an out-of-range read) is falsy. -/
def jsOrStr (s dflt : String) : String :=
  if s = "" then dflt else s

/-- The module-level mutable state of the source: the loaded-model flag,
the (possibly unloaded) scaler and label list, the sample `buffer`, and
`lastPredTime`. -/
structure PipelineState where
  modelLoaded : Bool
  scaler : Option Scaler
  labels : Option (List String)
  buffer : List Sample
  lastPredTime : ℤ

/-- The guard `!model || !scaler || !labels` of `doPredictFromBuffer`,
negated: all three assets are loaded. -/
def assetsLoaded (st : PipelineState) : Bool :=
  st.modelLoaded && st.scaler.isSome && st.labels.isSome

/-- What `doPredictFromBuffer` pushes to the UI sink (`logs.innerText` /
`updateUI`) in one call, if anything. -/
inductive UIMessage where
  | notReady : UIMessage
  | predictionError : UIMessage
  | prediction (label : String) (five : ℕ) (confidence : ℝ) : UIMessage

/-- The opaque classifier `model.predict` followed by `out.data()`:
either a probability array or a thrown error / malformed output. -/
def Classify : Type := List ℝ → Except String (List ℝ)

/-- `doPredictFromBuffer` (first, current variant), as a total function of
the state, the current time `now = Date.now()`, and the opaque
classifier. Returns the new state, the UI-sink message (if any), and
whether an inference cycle ran (the body of the `try` block was
entered). The `Except.error` branch is the `catch`: the error is logged,
a status message is shown, and nothing else changes. -/
noncomputable def doPredictFromBuffer (classify : Classify)
    (st : PipelineState) (now : ℤ) : PipelineState × Option UIMessage × Bool :=
  if !(assetsLoaded st) then
    if now - st.lastPredTime > 2000 then
      ({ st with lastPredTime := now }, some UIMessage.notReady, false)
    else (st, none, false)
  else if now - st.lastPredTime < 800 then (st, none, false)
  else
    match classify (standardize st.scaler (computeFeatures st.buffer)) with
    | Except.error _ =>
        ({ st with lastPredTime := now }, some UIMessage.predictionError, true)
    | Except.ok probs =>
        let label := jsOrStr ((st.labels.getD []).getD (argmax probs) "") "unknown"
        ({ st with lastPredTime := now },
          some (UIMessage.prediction label (mapToFive label)
            (probs.getD (argmax probs) 0)), true)

/-- `processSample(sample)`: push into the window (evicting from the head
past capacity), then call `doPredictFromBuffer` exactly when the window
is full. -/
noncomputable def processSample (classify : Classify) (st : PipelineState)
    (s : Sample) (now : ℤ) : PipelineState × Option UIMessage × Bool :=
  if (pushSample st.buffer s).length = SAMPLING_TARGET then
    doPredictFromBuffer classify { st with buffer := pushSample st.buffer s } now
  else ({ st with buffer := pushSample st.buffer s }, none, false)

/-- Run a list of timed sample arrivals through `processSample`, counting
how many inference cycles ran. -/
noncomputable def runEvents (classify : Classify) (st : PipelineState)
    (events : List (Sample × ℤ)) : PipelineState × ℕ :=
  events.foldl (fun acc e =>
    let r := processSample classify acc.1 e.1 e.2
    (r.1, acc.2 + if r.2.2 then 1 else 0)) (st, 0)

/-- A fixed all-zero sample, used in concrete witnesses. -/
noncomputable def sample0 : Sample := ⟨0, 0, 0⟩

/-- A 7-feature scaler whose first scale entry is `1e-9`: nonzero but
smaller than the `1e-8` guard. -/
noncomputable def scaler4 : Scaler :=
  ⟨[0, 0, 0, 0, 0, 0, 0], [1 / 1000000000, 1, 1, 1, 1, 1, 1]⟩

/-- A well-formed 7-feature scaler (zero means, unit scales). -/
noncomputable def scaler7 : Scaler :=
  ⟨[0, 0, 0, 0, 0, 0, 0], [1, 1, 1, 1, 1, 1, 1]⟩

/-- A 7-feature scaler with every scale entry zero. -/
noncomputable def scaler9 : Scaler :=
  ⟨[0, 0, 0, 0, 0, 0, 0], [0, 0, 0, 0, 0, 0, 0]⟩

/-- A feature vector singling out coordinate 0. -/
noncomputable def feats4 : List ℝ := [1, 0, 0, 0, 0, 0, 0]

/-- A loaded pipeline state whose window is one sample short of full. -/
noncomputable def st199 : PipelineState :=
  ⟨true, some scaler7, some ["Walking"], List.replicate 199 sample0, 0⟩

/-- A pipeline state with no assets loaded. -/
noncomputable def stUnloaded : PipelineState :=
  ⟨false, none, none, [], 0⟩

/-- A classifier stub that always succeeds with an empty distribution. -/
def classifyOk : Classify := fun _ => Except.ok []

/-- A classifier stub that always throws. -/
def classifyErr : Classify := fun _ => Except.error "boom"

/-- A concrete one-sample window, used in concrete witnesses. -/
noncomputable def buf1 : List Sample := [⟨1, 2, 3⟩]

/-! ## Theorems -/

lemma windowAfter_concat (l : List Sample) (a : Sample) :
    windowAfter (l ++ [a]) = pushSample (windowAfter l) a := by
  simp [windowAfter, List.foldl_append]

lemma windowAfter_eq_drop (l : List Sample) :
    windowAfter l = l.drop (l.length - SAMPLING_TARGET) := by
  induction l using List.reverseRecOn with
  | nil => simp [windowAfter]
  | append_singleton l a ih =>
    rw [windowAfter_concat, ih]
    by_cases h : l.length < SAMPLING_TARGET
    · have h0 : l.length - SAMPLING_TARGET = 0 := by omega
      have h1 : (l ++ [a]).length - SAMPLING_TARGET = 0 := by
        rw [List.length_append]; simp; omega
      have hc : ¬ (l.drop (l.length - SAMPLING_TARGET) ++ [a]).length > SAMPLING_TARGET := by
        rw [h0, List.drop_zero, List.length_append]; simp; omega
      rw [pushSample, if_neg hc, h0, h1, List.drop_zero, List.drop_zero]
    · have hT : (0 : ℕ) < SAMPLING_TARGET := by decide
      have hn : SAMPLING_TARGET ≤ l.length := by omega
      have hlen : (l.drop (l.length - SAMPLING_TARGET)).length = SAMPLING_TARGET := by
        rw [List.length_drop]; omega
      have hc : (l.drop (l.length - SAMPLING_TARGET) ++ [a]).length > SAMPLING_TARGET := by
        rw [List.length_append, hlen]; simp
      have e1 : pushSample (l.drop (l.length - SAMPLING_TARGET)) a
          = (l.drop (l.length - SAMPLING_TARGET) ++ [a]).tail := by
        rw [pushSample, if_pos hc]
      have e2 : (l.drop (l.length - SAMPLING_TARGET) ++ [a]).tail
          = (l.drop (l.length - SAMPLING_TARGET)).tail ++ [a] := by
        rw [← List.drop_one, ← List.drop_one,
          List.drop_append_of_le_length (by rw [hlen]; omega)]
      have e3 : (l.drop (l.length - SAMPLING_TARGET)).tail
          = l.drop (l.length + 1 - SAMPLING_TARGET) := by
        rw [← List.drop_one, List.drop_drop]
        have hidx0 : l.length - SAMPLING_TARGET + 1 = l.length + 1 - SAMPLING_TARGET := by
          omega
        rw [hidx0]
      have e4 : (l ++ [a]).drop ((l ++ [a]).length - SAMPLING_TARGET)
          = l.drop (l.length + 1 - SAMPLING_TARGET) ++ [a] := by
        have hidx : (l ++ [a]).length - SAMPLING_TARGET
            = l.length + 1 - SAMPLING_TARGET := by
          rw [List.length_append]; simp
        rw [hidx, List.drop_append_of_le_length (by omega)]
      rw [e1, e2, e3, e4]

/-- C1: for every sequence of pushed samples the window length never
exceeds `N = SAMPLING_TARGET = 200`; the window always consists of the
most recently pushed samples in arrival order (it equals the pushed
sequence with all but the last `N` entries dropped from the front, so
`push` appends at the tail and evicts from the head); and once at least
`N` samples have been pushed the window length is exactly `N`. -/
theorem c1_window_sliding (samples : List Sample) :
    (windowAfter samples).length ≤ SAMPLING_TARGET ∧
    windowAfter samples = samples.drop (samples.length - SAMPLING_TARGET) ∧
    (SAMPLING_TARGET ≤ samples.length →
      (windowAfter samples).length = SAMPLING_TARGET) := by
  refine ⟨?_, windowAfter_eq_drop samples, fun h => ?_⟩
  · rw [windowAfter_eq_drop, List.length_drop]; omega
  · rw [windowAfter_eq_drop, List.length_drop]; omega

/-- Witness for C1 at a concrete sequence of 201 pushed samples. -/
theorem c1_window_sliding_witness :
    SAMPLING_TARGET ≤ (List.replicate 201 sample0).length ∧
    (windowAfter (List.replicate 201 sample0)).length = SAMPLING_TARGET := by
  have h : SAMPLING_TARGET ≤ (List.replicate 201 sample0).length := by
    rw [List.length_replicate]; decide
  exact ⟨h, (c1_window_sliding (List.replicate 201 sample0)).2.2 h⟩

lemma foldl_add_map {α : Type} (f : α → ℝ) (l : List α) (a : ℝ) :
    l.foldl (fun s v => s + f v) a = a + (l.map f).sum := by
  induction l generalizing a with
  | nil => simp
  | cons x t ih => simp [ih (a + f x), add_assoc]

lemma listReduceAdd_eq_sum (arr : List ℝ) : listReduceAdd arr = arr.sum := by
  simpa [listReduceAdd] using foldl_add_map (fun v : ℝ => v) arr 0

lemma mean_eq_specMean (arr : List ℝ) : mean arr = specMean arr := by
  rw [mean, specMean, listReduceAdd_eq_sum, one_div_mul_eq_div]

lemma foldl_add_sq (arr : List ℝ) (m : ℝ) :
    arr.foldl (fun s v => s + (v - m) ^ 2) 0 =
      (arr.map (fun v => (v - m) ^ 2)).sum := by
  simpa using foldl_add_map (fun v => (v - m) ^ 2) arr 0

lemma std_eq_specStd (arr : List ℝ) : std arr = specStd arr := by
  rw [std, specStd, mean_eq_specMean]
  congr 1
  rw [foldl_add_sq, one_div_mul_eq_div]

lemma rmsOf_eq_specRms (buf : List Sample) : rmsOf buf = specRms buf := by
  have hfun : (fun p : Sample => Real.sqrt (p.x * p.x + p.y * p.y + p.z * p.z)) =
      (fun p : Sample => Real.sqrt (p.x ^ 2 + p.y ^ 2 + p.z ^ 2)) := by
    funext p
    congr 1
    ring
  have h : (buf.foldl (fun s p => s + Real.sqrt (p.x * p.x + p.y * p.y + p.z * p.z)) 0) =
      (buf.map (fun p : Sample => Real.sqrt (p.x * p.x + p.y * p.y + p.z * p.z))).sum := by
    simpa using foldl_add_map
      (fun p : Sample => Real.sqrt (p.x * p.x + p.y * p.y + p.z * p.z)) buf 0
  rw [rmsOf, specRms, h, hfun, one_div_mul_eq_div]

/-- C2: for every nonempty window, `computeFeatures` returns exactly the
7-element vector `[mean_x, mean_y, mean_z, std_x, std_y, std_z, rms]`,
where each mean is the arithmetic mean `(1/N)·Σ`, each std is the
population standard deviation `sqrt((1/N)·Σ (v - mean)²)` (no Bessel
correction), and `rms` is the mean of the per-sample 3-D magnitudes
`(1/N)·Σ sqrt(x² + y² + z²)` (not a textbook root-mean-square). -/
theorem c2_features (buf : List Sample) (h : 0 < buf.length) :
    computeFeatures buf =
      [specMean (buf.map Sample.x), specMean (buf.map Sample.y),
       specMean (buf.map Sample.z), specStd (buf.map Sample.x),
       specStd (buf.map Sample.y), specStd (buf.map Sample.z),
       specRms buf] ∧
    (computeFeatures buf).length = 7 := by
  refine ⟨?_, rfl⟩
  rw [computeFeatures, mean_eq_specMean, mean_eq_specMean, mean_eq_specMean,
    std_eq_specStd, std_eq_specStd, std_eq_specStd, rmsOf_eq_specRms]

/-- Witness for C2 at a concrete one-sample window. -/
theorem c2_features_witness :
    0 < buf1.length ∧
    (computeFeatures buf1 =
      [specMean (buf1.map Sample.x), specMean (buf1.map Sample.y),
       specMean (buf1.map Sample.z), specStd (buf1.map Sample.x),
       specStd (buf1.map Sample.y), specStd (buf1.map Sample.z),
       specRms buf1] ∧
     (computeFeatures buf1).length = 7) :=
  ⟨by simp [buf1], c2_features buf1 (by simp [buf1])⟩

lemma assetsLoaded_set_buffer (st : PipelineState) (b : List Sample) :
    assetsLoaded { st with buffer := b } = assetsLoaded st := rfl

lemma doPredict_state (classify : Classify) (st : PipelineState) (now : ℤ) :
    (doPredictFromBuffer classify st now).1.buffer = st.buffer ∧
    (doPredictFromBuffer classify st now).1.modelLoaded = st.modelLoaded ∧
    (doPredictFromBuffer classify st now).1.scaler = st.scaler ∧
    (doPredictFromBuffer classify st now).1.labels = st.labels := by
  rw [doPredictFromBuffer]
  split_ifs with h1 h2 h3
  · simp
  · simp
  · simp
  · rcases classify (standardize st.scaler (computeFeatures st.buffer)) with e | p <;> simp

lemma doPredict_ran_iff (classify : Classify) (st : PipelineState) (now : ℤ)
    (hA : assetsLoaded st = true) :
    (doPredictFromBuffer classify st now).2.2 = true ↔
      800 ≤ now - st.lastPredTime := by
  rw [doPredictFromBuffer]
  by_cases hlt : now - st.lastPredTime < 800
  · simp only [hA, Bool.not_true, Bool.false_eq_true, if_false, if_pos hlt]
    simp
    omega
  · rcases hcl : classify (standardize st.scaler (computeFeatures st.buffer)) with e | p <;>
      simp only [hA, Bool.not_true, Bool.false_eq_true, if_false, if_neg hlt, hcl] <;>
      simp <;> omega

lemma doPredict_run (classify : Classify) (st : PipelineState) (now : ℤ)
    (hA : assetsLoaded st = true) (ht : 800 ≤ now - st.lastPredTime) :
    (doPredictFromBuffer classify st now).1 = { st with lastPredTime := now } := by
  rw [doPredictFromBuffer]
  have hlt : ¬ now - st.lastPredTime < 800 := by omega
  rcases hcl : classify (standardize st.scaler (computeFeatures st.buffer)) with e | p <;>
    simp [hA, hlt, hcl]

lemma doPredict_skip (classify : Classify) (st : PipelineState) (now : ℤ)
    (hA : assetsLoaded st = true) (hlt : now - st.lastPredTime < 800) :
    doPredictFromBuffer classify st now = (st, none, false) := by
  rw [doPredictFromBuffer]
  simp [hA, hlt]

lemma pushSample_not_exceed (b : List Sample) (s : Sample)
    (h : b.length < SAMPLING_TARGET) :
    pushSample b s = b ++ [s] := by
  have hc : ¬ (b ++ [s]).length > SAMPLING_TARGET := by
    rw [List.length_append]
    simp
    omega
  rw [pushSample, if_neg hc]

lemma pushSample_full_of_full (b : List Sample) (s : Sample)
    (h : b.length = SAMPLING_TARGET) :
    (pushSample b s).length = SAMPLING_TARGET := by
  have hc : (b ++ [s]).length > SAMPLING_TARGET := by
    rw [List.length_append, h]
    simp
  rw [pushSample, if_pos hc, List.length_tail, List.length_append, h]
  simp

lemma processSample_buffer (classify : Classify) (st : PipelineState)
    (s : Sample) (now : ℤ) :
    (processSample classify st s now).1.buffer = pushSample st.buffer s := by
  rw [processSample]
  split_ifs with h
  · exact (doPredict_state classify _ now).1
  · rfl

lemma processSample_ran_iff (classify : Classify) (st : PipelineState)
    (s : Sample) (now : ℤ) (hA : assetsLoaded st = true) :
    (processSample classify st s now).2.2 = true ↔
      ((pushSample st.buffer s).length = SAMPLING_TARGET ∧
        800 ≤ now - st.lastPredTime) := by
  rw [processSample]
  split_ifs with h
  · rw [doPredict_ran_iff classify _ now (by rw [assetsLoaded_set_buffer]; exact hA)]
    constructor
    · exact fun ht => ⟨h, ht⟩
    · exact fun hp => hp.2
  · simp [h]

lemma processSample_full_run (classify : Classify) (st : PipelineState)
    (s : Sample) (now : ℤ) (hA : assetsLoaded st = true)
    (hfull : (pushSample st.buffer s).length = SAMPLING_TARGET)
    (ht : 800 ≤ now - st.lastPredTime) :
    (processSample classify st s now).1 =
      { st with buffer := pushSample st.buffer s, lastPredTime := now } ∧
    (processSample classify st s now).2.2 = true := by
  rw [processSample, if_pos hfull]
  have hA1 : assetsLoaded { st with buffer := pushSample st.buffer s } = true := by
    rw [assetsLoaded_set_buffer]; exact hA
  constructor
  · rw [doPredict_run classify _ now hA1 ht]
  · rw [doPredict_ran_iff classify _ now hA1]
    exact ht

lemma processSample_full_skip (classify : Classify) (st : PipelineState)
    (s : Sample) (now : ℤ) (hA : assetsLoaded st = true)
    (hfull : (pushSample st.buffer s).length = SAMPLING_TARGET)
    (hlt : now - st.lastPredTime < 800) :
    processSample classify st s now =
      ({ st with buffer := pushSample st.buffer s }, none, false) := by
  rw [processSample, if_pos hfull]
  exact doPredict_skip classify _ now (by rw [assetsLoaded_set_buffer]; exact hA) hlt

/-- C3: with assets loaded, a sample arrival always slides the window
(the sample is buffered whether or not an inference runs), and an
inference cycle runs if and only if the window is full after the push
and at least `800` ms have elapsed since `lastPredTime`; consequently,
from a loaded state whose window is one sample short of full and whose
rate limit has lapsed, two arrivals `100` ms apart produce exactly one
inference and two arrivals `900` ms apart produce two. -/
theorem c3_rate_limiting (classify : Classify) (st : PipelineState)
    (hA : assetsLoaded st = true) :
    (∀ (s : Sample) (now : ℤ),
        (processSample classify st s now).1.buffer = pushSample st.buffer s ∧
        ((processSample classify st s now).2.2 = true ↔
          ((pushSample st.buffer s).length = SAMPLING_TARGET ∧
            800 ≤ now - st.lastPredTime))) ∧
    (∀ (s1 s2 : Sample) (t : ℤ),
        st.buffer.length + 1 = SAMPLING_TARGET →
        800 ≤ t - st.lastPredTime →
        (runEvents classify st [(s1, t), (s2, t + 100)]).2 = 1 ∧
        (runEvents classify st [(s1, t), (s2, t + 900)]).2 = 2) := by
  constructor
  · intro s now
    exact ⟨processSample_buffer classify st s now,
      processSample_ran_iff classify st s now hA⟩
  · intro s1 s2 t hL ht
    have hlt : st.buffer.length < SAMPLING_TARGET := by omega
    have hfull1 : (pushSample st.buffer s1).length = SAMPLING_TARGET := by
      rw [pushSample_not_exceed st.buffer s1 hlt, List.length_append]
      simp
      omega
    have hps1 := processSample_full_run classify st s1 t hA hfull1 ht
    set st1 : PipelineState :=
      { st with buffer := pushSample st.buffer s1, lastPredTime := t } with hst1
    have hA1 : assetsLoaded st1 = true := hA
    have hb1 : st1.buffer = pushSample st.buffer s1 := rfl
    have ht1 : st1.lastPredTime = t := rfl
    have hfull2 : (pushSample st1.buffer s2).length = SAMPLING_TARGET := by
      rw [hb1]
      exact pushSample_full_of_full _ s2 hfull1
    constructor
    · have hskip := processSample_full_skip classify st1 s2 (t + 100) hA1 hfull2
        (by rw [ht1]; omega)
      rw [runEvents]
      simp only [List.foldl_cons, List.foldl_nil, hps1.1, hps1.2, hskip]
      simp
    · have hrun2 := processSample_full_run classify st1 s2 (t + 900) hA1 hfull2
        (by rw [ht1]; omega)
      rw [runEvents]
      simp only [List.foldl_cons, List.foldl_nil, hps1.1, hps1.2, hrun2.2]
      simp

/-- Witness for C3 at a concrete loaded state with a 199-sample window. -/
theorem c3_rate_limiting_witness :
    assetsLoaded st199 = true ∧
    st199.buffer.length + 1 = SAMPLING_TARGET ∧
    (800 : ℤ) ≤ 1000 - st199.lastPredTime ∧
    ((runEvents classifyOk st199 [(sample0, 1000), (sample0, 1000 + 100)]).2 = 1 ∧
      (runEvents classifyOk st199 [(sample0, 1000), (sample0, 1000 + 900)]).2 = 2) := by
  have hA : assetsLoaded st199 = true := rfl
  have hL : st199.buffer.length + 1 = SAMPLING_TARGET := by
    show (List.replicate 199 sample0).length + 1 = SAMPLING_TARGET
    rw [List.length_replicate]
    decide
  have ht : (800 : ℤ) ≤ 1000 - st199.lastPredTime := by
    show (800 : ℤ) ≤ 1000 - 0
    norm_num
  exact ⟨hA, hL, ht,
    (c3_rate_limiting classifyOk st199 hA).2 sample0 sample0 1000 hL ht⟩

lemma getD_map_range (n i : ℕ) (g : ℕ → ℝ) (hi : i < n) :
    ((List.range n).map g).getD i 0 = g i := by
  rw [List.getD_eq_getElem?_getD, List.getElem?_map, List.getElem?_range hi]
  rfl

lemma standardize_getD (scaler : Option Scaler) (features : List ℝ) (i : ℕ)
    (hi : i < features.length) :
    (standardize scaler features).getD i 0 =
      (features.getD i 0 - jsOr (((scaler.map Scaler.mean).getD []).getD i 0) 0) /
        jsOr (((scaler.map Scaler.scale).getD []).getD i 0) epsilon := by
  rw [standardize]
  exact getD_map_range _ i _ hi

lemma scalerArrs_some (sc : Scaler) :
    ((some sc).map Scaler.mean).getD [] = sc.mean ∧
    ((some sc).map Scaler.scale).getD [] = sc.scale := ⟨rfl, rfl⟩

lemma jsOr_zero (v : ℝ) : jsOr v 0 = v := by
  rw [jsOr]
  split_ifs with h
  · exact h.symm
  · rfl

lemma standardize_length (scaler : Option Scaler) (features : List ℝ) :
    (standardize scaler features).length = features.length := by
  rw [standardize]
  simp

lemma range_map_getD (g : ℝ → ℝ) (l : List ℝ) :
    (List.range l.length).map (fun i => g (l.getD i 0)) = l.map g := by
  induction l with
  | nil => simp
  | cons x t ih =>
    have hfun : ((fun i => g ((x :: t).getD i 0)) ∘ Nat.succ) =
        fun i => g (t.getD i 0) := by
      funext i
      simp [Function.comp, List.getD_cons_succ]
    calc (List.range (x :: t).length).map (fun i => g ((x :: t).getD i 0))
        = (0 :: List.map Nat.succ (List.range t.length)).map
            (fun i => g ((x :: t).getD i 0)) := by
          rw [List.length_cons, List.range_succ_eq_map]
      _ = g x :: (List.range t.length).map
            ((fun i => g ((x :: t).getD i 0)) ∘ Nat.succ) := by
          rw [List.map_cons, List.map_map, List.getD_cons_zero]
      _ = g x :: t.map g := by rw [hfun, ih]
      _ = (x :: t).map g := rfl

lemma standardize_none (features : List ℝ) :
    standardize none features = features.map (fun v => v / epsilon) := by
  have hnil : ∀ i : ℕ, (([] : List ℝ)).getD i 0 = 0 := by
    intro i
    simp [List.getD_eq_getElem?_getD]
  have hbody : ∀ i : ℕ,
      (features.getD i 0 - jsOr ((([] : List ℝ)).getD i 0) 0) /
        jsOr ((([] : List ℝ)).getD i 0) epsilon = features.getD i 0 / epsilon := by
    intro i
    rw [hnil i, jsOr_zero, jsOr, if_pos rfl, sub_zero]
  rw [standardize]
  show (List.range features.length).map (fun i =>
    (features.getD i 0 - jsOr ((([] : List ℝ)).getD i 0) 0) /
      jsOr ((([] : List ℝ)).getD i 0) epsilon) = _
  simp only [hbody]
  exact range_map_getD (fun v => v / epsilon) features

/-- C4 counterexample: at `scale[0] = 1e-9` — truthy in JS, hence used
as-is by `scale[i] || 1e-8` — the source divides by `1e-9`, whereas the
claim's `max(scale[i], epsilon)` divisor would be `1e-8`; with
`feature[0] = 1` and `mean[0] = 0` the source outputs `1e9` while the
claim's formula outputs `1e8`, so the normalizer does not compute
`(feature[i] - mean[i]) / max(scale[i], epsilon)`. -/
theorem c4_counterexample :
    (standardize (some scaler4) feats4).getD 0 0 = 1000000000 ∧
    (specStandardize scaler4 feats4).getD 0 0 = 100000000 ∧
    standardize (some scaler4) feats4 ≠ specStandardize scaler4 feats4 := by
  have hi : (0 : ℕ) < feats4.length := by simp [feats4]
  have h1 : (standardize (some scaler4) feats4).getD 0 0 = 1000000000 := by
    rw [standardize_getD (some scaler4) feats4 0 hi,
      (scalerArrs_some scaler4).1, (scalerArrs_some scaler4).2]
    show ((1 : ℝ) - jsOr 0 0) / jsOr (1 / 1000000000) epsilon = 1000000000
    rw [jsOr_zero, jsOr, if_neg (by norm_num)]
    norm_num
  have h2 : (specStandardize scaler4 feats4).getD 0 0 = 100000000 := by
    rw [specStandardize, getD_map_range _ 0 _ hi]
    show ((1 : ℝ) - 0) / max (1 / 1000000000) epsilon = 100000000
    rw [max_eq_right (by rw [epsilon]; norm_num), epsilon]
    norm_num
  refine ⟨h1, h2, fun heq => ?_⟩
  rw [heq] at h1
  have : (1000000000 : ℝ) = 100000000 := h1.symm.trans h2
  norm_num at this

/-- C4 amended: for a loaded 7-entry scaler and a 7-entry feature
vector, the normalizer returns element-wise
`(feature[i] - mean[i]) / d_i` where the divisor `d_i` is `scale[i]`
itself whenever `scale[i] ≠ 0`, and the near-zero guard
`epsilon = 1e-8` only when `scale[i] = 0`; a nonzero `scale[i]` smaller
than `epsilon` (or negative) is used unchanged, not clamped to
`max(scale[i], epsilon)`. -/
theorem c4_standardize (sc : Scaler) (features : List ℝ)
    (hm : sc.mean.length = 7) (hs : sc.scale.length = 7)
    (hf : features.length = 7) :
    ∀ i, i < 7 →
      (standardize (some sc) features).getD i 0 =
        (features.getD i 0 - sc.mean.getD i 0) /
          (if sc.scale.getD i 0 = 0 then epsilon else sc.scale.getD i 0) := by
  intro i hi
  rw [standardize_getD (some sc) features i (by omega),
    (scalerArrs_some sc).1, (scalerArrs_some sc).2, jsOr_zero, jsOr]

/-- Witness for the amended C4 at a concrete scaler and feature vector. -/
theorem c4_standardize_witness :
    scaler4.mean.length = 7 ∧ scaler4.scale.length = 7 ∧ feats4.length = 7 ∧
    (0 : ℕ) < 7 ∧
    (standardize (some scaler4) feats4).getD 0 0 =
      (feats4.getD 0 0 - scaler4.mean.getD 0 0) /
        (if scaler4.scale.getD 0 0 = 0 then epsilon else scaler4.scale.getD 0 0) :=
  ⟨rfl, rfl, rfl, by decide,
    c4_standardize scaler4 feats4 rfl rfl rfl 0 (by decide)⟩

/-- C5 counterexample: the normalizer does not fail in either scenario
the claim names. With no scaler loaded (`scaler?.mean || []` and
`scaler?.scale || []` both fall back to `[]`) it returns an ordinary
vector rather than a `MissingScalerError`, and with a feature vector
whose length differs from the scaler arrays' length 7 it returns a
vector of the feature length rather than a `DimensionMismatchError`. -/
theorem c5_counterexample :
    standardize none [1, 0, 0, 0, 0, 0, 0] =
      [100000000, 0, 0, 0, 0, 0, 0] ∧
    (standardize (some scaler7) [5]).length = 1 := by
  constructor
  · rw [standardize_none]
    simp only [List.map_cons, List.map_nil]
    rw [epsilon]
    norm_num
  · rw [standardize_length]
    rfl

/-- C5 amended: the normalizer never fails. If the scaler is not loaded
it standardizes against empty arrays, returning `feature[i] / epsilon`
for every entry (the pipeline instead guards this case upstream:
`doPredictFromBuffer` skips the inference entirely, leaving the buffer
untouched, when any asset is missing); and whatever the dimensions, it
returns a vector of the feature vector's length with missing scaler
entries defaulted (mean to `0`, scale to `epsilon`), with no dimension
check anywhere. -/
theorem c5_no_failure :
    (∀ features : List ℝ,
        standardize none features = features.map (fun v => v / epsilon)) ∧
    (∀ (scaler : Option Scaler) (features : List ℝ),
        (standardize scaler features).length = features.length) ∧
    (∀ (classify : Classify) (st : PipelineState) (now : ℤ),
        assetsLoaded st = false →
        (doPredictFromBuffer classify st now).2.2 = false ∧
        (doPredictFromBuffer classify st now).1.buffer = st.buffer) := by
  refine ⟨standardize_none, standardize_length, ?_⟩
  intro classify st now h
  rw [doPredictFromBuffer]
  simp only [h, Bool.not_false, if_true]
  split_ifs with h2
  · exact ⟨rfl, rfl⟩
  · exact ⟨rfl, rfl⟩

/-- Witness for the amended C5 at concrete inputs, including an unloaded
pipeline state. -/
theorem c5_no_failure_witness :
    (standardize none [(1 : ℝ)] = [(1 : ℝ)].map (fun v => v / epsilon)) ∧
    ((standardize (some scaler7) [(5 : ℝ)]).length = ([(5 : ℝ)] : List ℝ).length) ∧
    (assetsLoaded stUnloaded = false ∧
      (doPredictFromBuffer classifyOk stUnloaded 5).2.2 = false ∧
      (doPredictFromBuffer classifyOk stUnloaded 5).1.buffer = stUnloaded.buffer) :=
  ⟨c5_no_failure.1 [(1 : ℝ)], c5_no_failure.2.1 (some scaler7) [(5 : ℝ)],
    rfl, c5_no_failure.2.2 classifyOk stUnloaded 5 rfl⟩

/-- C9: when `scale[i] = 0` the `|| 1e-8` guard replaces the zero
divisor by `epsilon`, which is nonzero, so the `i`-th output of the
normalizer is the well-defined real `(feature[i] - mean[i]) / epsilon`
(the embedding works in exact reals, where a nonzero divisor is exactly
what rules out the `Infinity`/`NaN` of a JS division by zero). -/
theorem c9_epsilon_guard (sc : Scaler) (features : List ℝ) (i : ℕ)
    (hi : i < features.length) (h0 : sc.scale.getD i 0 = 0) :
    jsOr (sc.scale.getD i 0) epsilon = epsilon ∧
    jsOr (sc.scale.getD i 0) epsilon ≠ 0 ∧
    (standardize (some sc) features).getD i 0 =
      (features.getD i 0 - sc.mean.getD i 0) / epsilon := by
  have he : jsOr (sc.scale.getD i 0) epsilon = epsilon := by
    rw [jsOr, if_pos h0]
  refine ⟨he, ?_, ?_⟩
  · rw [he, epsilon]
    norm_num
  · rw [standardize_getD (some sc) features i hi, (scalerArrs_some sc).1,
      (scalerArrs_some sc).2, jsOr_zero, he]

/-- Witness for C9 at a concrete scaler whose scale entries are all zero. -/
theorem c9_epsilon_guard_witness :
    (0 : ℕ) < feats4.length ∧ scaler9.scale.getD 0 0 = 0 ∧
    (jsOr (scaler9.scale.getD 0 0) epsilon = epsilon ∧
     jsOr (scaler9.scale.getD 0 0) epsilon ≠ 0 ∧
     (standardize (some scaler9) feats4).getD 0 0 =
       (feats4.getD 0 0 - scaler9.mean.getD 0 0) / epsilon) := by
  have hi : (0 : ℕ) < feats4.length := by simp [feats4]
  have h0 : scaler9.scale.getD 0 0 = 0 := rfl
  exact ⟨hi, h0, c9_epsilon_guard scaler9 feats4 0 hi h0⟩

/-- C6 counterexample: rule 4 of the claim says a label *containing*
"jogging" maps to level 5, but the source compares that rule with `===`
(equality): the label "Jogging Along" contains "jogging"
case-insensitively, matches none of the earlier rules, and yet maps to
the default level 3, not 5. -/
theorem c6_counterexample :
    jsIncludes (jsToLower "Jogging Along") "jogging" = true ∧
    mapToFive "Jogging Along" = 3 := by
  constructor
  · decide
  · decide

/-- C6 amended: the mapping applies the claim's rules in order, matching
case-insensitively with first match wins — containment of "sit" or
"stand" gives 1, equality with "walking" gives 3, equality with
"upstairs" or "downstairs" gives 3, *equality* (not containment) with
"jogging" or "running" gives 5, and everything else (including the empty
label, which the `!lab` guard short-circuits) defaults to 3 — and all
the claim's example labels evaluate as it states. -/
theorem c6_map_to_five :
    (∀ lab : String, mapToFive lab = claimLevel lab) ∧
    mapToFive "Sitting" = 1 ∧ mapToFive "JOGGING" = 5 ∧
    mapToFive "Walking" = 3 ∧ mapToFive "Upstairs" = 3 ∧
    mapToFive "banana" = 3 ∧ mapToFive "" = 3 := by
  refine ⟨?_, by decide, by decide, by decide, by decide, by decide, by decide⟩
  intro lab
  by_cases h : lab = ""
  · subst h
    decide
  · rw [mapToFive, if_neg h, claimLevel]

lemma argmax_loop_invariant (probs : List ℝ) :
    ∀ (m i acc : ℕ), acc ≤ i →
      (∀ j, j ≤ i → probs.getD j 0 ≤ probs.getD acc 0) →
      (∀ j, j < acc → probs.getD j 0 < probs.getD acc 0) →
      (argmaxLoop probs (List.range' (i + 1) m) acc ≤ i + m ∧
       (∀ j, j ≤ i + m →
          probs.getD j 0 ≤ probs.getD (argmaxLoop probs (List.range' (i + 1) m) acc) 0) ∧
       (∀ j, j < argmaxLoop probs (List.range' (i + 1) m) acc →
          probs.getD j 0 < probs.getD (argmaxLoop probs (List.range' (i + 1) m) acc) 0)) := by
  intro m
  induction m with
  | zero =>
    intro i acc h1 h2 h3
    have hnil : argmaxLoop probs (List.range' (i + 1) 0) acc = acc := rfl
    rw [hnil]
    exact ⟨by omega, fun j hj => h2 j (by omega), h3⟩
  | succ m ih =>
    intro i acc h1 h2 h3
    have hstep : argmaxLoop probs (List.range' (i + 1) (m + 1)) acc =
        argmaxLoop probs (List.range' (i + 1 + 1) m)
          (if probs.getD (i + 1) 0 > probs.getD acc 0 then i + 1 else acc) := by
      rw [List.range'_succ]
      rfl
    by_cases hgt : probs.getD (i + 1) 0 > probs.getD acc 0
    · rw [hstep, if_pos hgt]
      have h2a : ∀ j, j ≤ i + 1 → probs.getD j 0 ≤ probs.getD (i + 1) 0 := by
        intro j hj
        rcases Nat.lt_or_ge j (i + 1) with hlt | hge
        · exact le_of_lt (lt_of_le_of_lt (h2 j (by omega)) hgt)
        · have hj1 : j = i + 1 := by omega
          rw [hj1]
      have h3a : ∀ j, j < i + 1 → probs.getD j 0 < probs.getD (i + 1) 0 := by
        intro j hj
        exact lt_of_le_of_lt (h2 j (by omega)) hgt
      have r := ih (i + 1) (i + 1) le_rfl h2a h3a
      refine ⟨?_, fun j hj => r.2.1 j (by omega), r.2.2⟩
      have := r.1
      omega
    · rw [hstep, if_neg hgt]
      have h2a : ∀ j, j ≤ i + 1 → probs.getD j 0 ≤ probs.getD acc 0 := by
        intro j hj
        rcases Nat.lt_or_ge j (i + 1) with hlt | hge
        · exact h2 j (by omega)
        · have hj1 : j = i + 1 := by omega
          rw [hj1]
          exact le_of_not_lt hgt
      have r := ih (i + 1) acc (by omega) h2a h3
      refine ⟨?_, fun j hj => r.2.1 j (by omega), r.2.2⟩
      have := r.1
      omega

/-- C7: for every nonempty probability array, the arg-max decision
returns a valid index whose value is maximal and which is the first
index achieving the maximum (every strictly earlier entry is strictly
smaller, so ties break toward the lower index); in particular the tied
distribution `[0.5, 0.5, 0.1]` selects index `0`. -/
theorem c7_argmax :
    (∀ probs : List ℝ, 0 < probs.length →
        argmax probs < probs.length ∧
        (∀ j, j < probs.length →
            probs.getD j 0 ≤ probs.getD (argmax probs) 0) ∧
        (∀ j, j < argmax probs →
            probs.getD j 0 < probs.getD (argmax probs) 0)) ∧
    argmax [1 / 2, 1 / 2, 1 / 10] = 0 := by
  constructor
  · intro probs hlen
    have h2 : ∀ j, j ≤ 0 → probs.getD j 0 ≤ probs.getD 0 0 := by
      intro j hj
      have hj0 : j = 0 := by omega
      rw [hj0]
    have h3 : ∀ j, j < 0 → probs.getD j 0 < probs.getD 0 0 := by
      intro j hj
      exact absurd hj (Nat.not_lt_zero j)
    have r := argmax_loop_invariant probs (probs.length - 1) 0 0 le_rfl h2 h3
    have h0 : argmax probs = argmaxLoop probs (List.range' (0 + 1) (probs.length - 1)) 0 := rfl
    rw [h0]
    refine ⟨?_, fun j hj => r.2.1 j (by omega), r.2.2⟩
    have := r.1
    omega
  · have hr : List.range' 1 (([1 / 2, 1 / 2, 1 / 10] : List ℝ).length - 1) = [1, 2] := rfl
    rw [argmax, hr, argmaxLoop]
    simp only [List.foldl_cons, List.foldl_nil]
    have g0 : ([1 / 2, 1 / 2, 1 / 10] : List ℝ).getD 0 0 = 1 / 2 := rfl
    have g1 : ([1 / 2, 1 / 2, 1 / 10] : List ℝ).getD 1 0 = 1 / 2 := rfl
    have g2 : ([1 / 2, 1 / 2, 1 / 10] : List ℝ).getD 2 0 = 1 / 10 := rfl
    have hcond1 : ¬ ([1 / 2, 1 / 2, 1 / 10] : List ℝ).getD 1 0 >
        ([1 / 2, 1 / 2, 1 / 10] : List ℝ).getD 0 0 := by
      rw [g1, g0]
      norm_num
    rw [if_neg hcond1]
    have hcond2 : ¬ ([1 / 2, 1 / 2, 1 / 10] : List ℝ).getD 2 0 >
        ([1 / 2, 1 / 2, 1 / 10] : List ℝ).getD 0 0 := by
      rw [g2, g0]
      norm_num
    rw [if_neg hcond2]

/-- Witness for C7 at the claim's tied distribution. -/
theorem c7_argmax_witness :
    0 < ([1 / 2, 1 / 2, 1 / 10] : List ℝ).length ∧
    (argmax [1 / 2, 1 / 2, 1 / 10] < ([1 / 2, 1 / 2, 1 / 10] : List ℝ).length ∧
     (∀ j, j < ([1 / 2, 1 / 2, 1 / 10] : List ℝ).length →
        ([1 / 2, 1 / 2, 1 / 10] : List ℝ).getD j 0 ≤
          ([1 / 2, 1 / 2, 1 / 10] : List ℝ).getD (argmax [1 / 2, 1 / 2, 1 / 10]) 0) ∧
     (∀ j, j < argmax [1 / 2, 1 / 2, 1 / 10] →
        ([1 / 2, 1 / 2, 1 / 10] : List ℝ).getD j 0 <
          ([1 / 2, 1 / 2, 1 / 10] : List ℝ).getD (argmax [1 / 2, 1 / 2, 1 / 10]) 0)) :=
  ⟨by simp, c7_argmax.1 [1 / 2, 1 / 2, 1 / 10] (by simp)⟩

/-- C8: if the classifier throws or its output is malformed
(`Except.error`), the error is caught by `doPredictFromBuffer`'s
`try`/`catch`: the call still returns normally (the step function is
total — no crash), the UI sink receives an error status message, the
buffer and the loaded assets are unchanged by the failed prediction, and
since only `lastPredTime` advanced, any later call at least `800` ms on
attempts a fresh inference cycle (the pipeline is back in its ready
state). -/
theorem c8_error_recovery (classify : Classify) (st : PipelineState)
    (now : ℤ) (e : String) (hA : assetsLoaded st = true)
    (ht : 800 ≤ now - st.lastPredTime)
    (hC : classify (standardize st.scaler (computeFeatures st.buffer)) =
      Except.error e) :
    (doPredictFromBuffer classify st now).2.2 = true ∧
    (doPredictFromBuffer classify st now).2.1 = some UIMessage.predictionError ∧
    (doPredictFromBuffer classify st now).1.buffer = st.buffer ∧
    (doPredictFromBuffer classify st now).1.modelLoaded = st.modelLoaded ∧
    (doPredictFromBuffer classify st now).1.scaler = st.scaler ∧
    (doPredictFromBuffer classify st now).1.labels = st.labels ∧
    (doPredictFromBuffer classify st now).1.lastPredTime = now ∧
    (∀ (classify2 : Classify) (now2 : ℤ), 800 ≤ now2 - now →
        (doPredictFromBuffer classify2
          (doPredictFromBuffer classify st now).1 now2).2.2 = true) := by
  have hres : doPredictFromBuffer classify st now =
      ({ st with lastPredTime := now }, some UIMessage.predictionError, true) := by
    rw [doPredictFromBuffer]
    have hlt : ¬ now - st.lastPredTime < 800 := by omega
    simp [hA, hlt, hC]
  rw [hres]
  refine ⟨rfl, rfl, rfl, rfl, rfl, rfl, rfl, ?_⟩
  intro classify2 now2 ht2
  rw [doPredict_ran_iff classify2 { st with lastPredTime := now } now2 hA]
  exact ht2

/-- Witness for C8: a loaded state with a classifier stub that always
throws. -/
theorem c8_error_recovery_witness :
    assetsLoaded st199 = true ∧
    (800 : ℤ) ≤ 1000 - st199.lastPredTime ∧
    classifyErr (standardize st199.scaler (computeFeatures st199.buffer)) =
      Except.error "boom" ∧
    ((doPredictFromBuffer classifyErr st199 1000).2.2 = true ∧
     (doPredictFromBuffer classifyErr st199 1000).2.1 =
       some UIMessage.predictionError ∧
     (doPredictFromBuffer classifyErr st199 1000).1.buffer = st199.buffer ∧
     (doPredictFromBuffer classifyErr st199 1000).1.modelLoaded = st199.modelLoaded ∧
     (doPredictFromBuffer classifyErr st199 1000).1.scaler = st199.scaler ∧
     (doPredictFromBuffer classifyErr st199 1000).1.labels = st199.labels ∧
     (doPredictFromBuffer classifyErr st199 1000).1.lastPredTime = 1000 ∧
     (∀ (classify2 : Classify) (now2 : ℤ), 800 ≤ now2 - 1000 →
        (doPredictFromBuffer classify2
          (doPredictFromBuffer classifyErr st199 1000).1 now2).2.2 = true)) := by
  have ht : (800 : ℤ) ≤ 1000 - st199.lastPredTime := by
    show (800 : ℤ) ≤ 1000 - 0
    norm_num
  exact ⟨rfl, ht, rfl, c8_error_recovery classifyErr st199 1000 "boom" rfl ht rfl⟩

/-- C10: for every input label, both variants of the label-to-intensity
mapping return only the values 1, 3 or 5 — the intermediate intensity
levels 2 and 4 are never produced, even though the UI renders five
indicators. -/
theorem c10_level_range (lab : String) :
    (mapToFive lab = 1 ∨ mapToFive lab = 3 ∨ mapToFive lab = 5) ∧
    (mapToFiveRelated lab = 1 ∨ mapToFiveRelated lab = 3 ∨
      mapToFiveRelated lab = 5) := by
  constructor
  · simp only [mapToFive]
    split_ifs <;> simp
  · simp only [mapToFiveRelated]
    split_ifs <;> simp

end Plot14
